import Mathlib

/-!
Verification of the anomaly & trend detection engine of the stream-monitor
dashboard, together with the consumer-side filtering done by the
AnomalyDetectionTab component.

The engine itself (the `detectAnomalies` backend invoked from
`src/components/Statistics/DataScience/AnomalyDetectionTab.tsx`) is not part
of the repository's files; every definition of it below is modelled from the
specification's own wording and is marked as such in its doc comment.
The tab-side definitions at the end are translated from
`AnomalyDetectionTab.tsx` directly.

Numeric values (viewer counts, chat rates) and the numeric time axis
(minutes) are embedded as rationals; the sample standard deviation, the one
quantity whose definition takes a square root, lives in the reals.
-/

namespace StreamMonitor

/-- Modelled from the spec: a raw sample as supplied by the external
time-series store (§3). The timestamp is `none` when it is unparseable;
the value is `none` when absent/null in the source feed. A parsed
timestamp is a rational number of minutes on the numeric time axis the
preprocessor converts to (§2, component 1). -/
structure RawSample where
  timestamp : Option ℚ
  value : Option ℚ
deriving DecidableEq, Repr

/-- Modelled from the spec: a sample after parsing — `(timestamp: instant,
value: non-negative number)` (§3), with the timestamp on the numeric axis. -/
structure Sample where
  timestamp : ℚ
  value : ℚ
deriving DecidableEq, Repr

/-- Modelled from the spec: stream-relative phase of a timestamp (§4.4). -/
inductive StreamPhase where
  | early
  | mid
  | late
deriving DecidableEq, Repr

/-- Modelled from the spec: trend direction (§3, TrendStats). -/
inductive Trend where
  | increasing
  | decreasing
  | stable
deriving DecidableEq, Repr

/-- Modelled from the spec: an anomaly record (§3): `{timestamp, value,
previousValue, changeAmount, changeRate, modifiedZScore, isPositive,
minutesFromStreamStart, streamPhase}`. -/
structure AnomalyRecord where
  timestamp : ℚ
  value : ℚ
  previousValue : ℚ
  changeAmount : ℚ
  changeRate : ℚ
  modifiedZScore : ℚ
  isPositive : Bool
  minutesFromStreamStart : ℤ
  streamPhase : StreamPhase
deriving DecidableEq, Repr

/-! ### Series preprocessor (spec §4.1, §7) -/

/-- Modelled from the spec: parse one raw sample (§4.1, §7). A sample whose
timestamp is unparseable or earlier than the minimum valid instant
`minValid` is dropped, and null/negative/zero readings are dropped. -/
def parseValid (minValid : ℚ) (s : RawSample) : Option Sample :=
  match s.timestamp, s.value with
  | some t, some v =>
      if t < minValid then none
      else if v ≤ 0 then none
      else some ⟨t, v⟩
  | _, _ => none

/-- Modelled from the spec: the "all valid samples" sequence (§4.1):
malformed timestamps and null/negative/zero readings removed. -/
def filterValid (minValid : ℚ) (l : List RawSample) : List Sample :=
  l.filterMap (parseValid minValid)

/-- Modelled from the spec: de-duplication tail (§4.1) — given the value of
the previous retained sample, a sample is retained iff its value differs
from it. -/
def dedupFrom (prev : ℚ) : List Sample → List Sample
  | [] => []
  | s :: rest =>
      if s.value = prev then dedupFrom prev rest
      else s :: dedupFrom s.value rest

/-- Modelled from the spec: de-duplication (§4.1) — a sample is retained iff
its value differs from the previous retained sample's value, or it is the
first sample. -/
def dedup : List Sample → List Sample
  | [] => []
  | s :: rest => s :: dedupFrom s.value rest

/-! ### Robust statistics module (spec §4.2) -/

/-- Modelled from the spec: the input sequence in sorted order (§4.2). -/
def sortedVals (l : List ℚ) : List ℚ :=
  l.insertionSort (· ≤ ·)

/-- Modelled from the spec: the median (§4.2) — the middle value of the
sorted sequence, the average of the two middle values for even length;
`0` for the empty sequence (which the contract excludes). -/
def median (l : List ℚ) : ℚ :=
  if (sortedVals l).length = 0 then 0
  else if (sortedVals l).length % 2 = 1 then
    (sortedVals l).getD ((sortedVals l).length / 2) 0
  else
    ((sortedVals l).getD ((sortedVals l).length / 2 - 1) 0 +
      (sortedVals l).getD ((sortedVals l).length / 2) 0) / 2

/-- Modelled from the spec: the Median Absolute Deviation (§4.2) — the
median of the absolute deviations from the median. -/
def mad (l : List ℚ) : ℚ :=
  median (l.map (fun x => |x - median l|))

/-- Modelled from the spec: the classical mean (§4.2). -/
def mean (l : List ℚ) : ℚ :=
  l.sum / l.length

/-- Modelled from the spec: the sample variance `Σ(x−mean)²/(n−1)` (§4.2).
Over ℚ the `n = 1` case divides by zero and thus yields 0, matching the
spec's `stddev = 0` for `n = 1`. -/
def variance (l : List ℚ) : ℚ :=
  (l.map (fun x => (x - mean l) ^ 2)).sum / ((l.length - 1 : ℕ) : ℚ)

/-- Modelled from the spec: sample standard deviation (§4.2),
`sqrt(Σ(x−mean)²/(n−1))`. -/
noncomputable def stddev (l : List ℚ) : ℝ :=
  Real.sqrt ((variance l : ℚ) : ℝ)

/-- Modelled from the spec: the Modified Z-Score (§4.2, glossary):
`0.6745 × (x − median) / mad`. Division by a zero MAD yields 0 over ℚ; the
classifier never consults a score against a zero MAD (§4.3 failure
semantics). -/
def modifiedZScore (med madv x : ℚ) : ℚ :=
  (6745 / 10000) * (x - med) / madv

/-! ### Phase tagger (spec §4.4) -/

/-- Modelled from the spec: relative elapsed position within the stream
(§4.4), `(timestamp − streamStart) / (streamEnd − streamStart)` clamped to
`[0,1]`. -/
def relativePosition (tStart tEnd t : ℚ) : ℚ :=
  max 0 (min 1 ((t - tStart) / (tEnd - tStart)))

/-- Modelled from the spec: stream phase of a timestamp (§4.4): early below
1/3, mid below 2/3, late otherwise. -/
def streamPhaseOf (tStart tEnd t : ℚ) : StreamPhase :=
  let rp := relativePosition tStart tEnd t
  if rp < 1 / 3 then .early
  else if rp < 2 / 3 then .mid
  else .late

/-! ### Anomaly classifier (spec §4.3) -/

/-- Modelled from the spec: the consecutive (predecessor, change point)
pairs of the de-duplicated sequence — the classifier's single forward pass
skips the first entry, which has no predecessor (§4.3 step 1). -/
def consecutivePairs (l : List Sample) : List (Sample × Sample) :=
  l.zip l.tail

/-- Modelled from the spec: the effective threshold (§4.3 step 3): the base
threshold, multiplied by 1.5 when the time gap to the previous change point
is less than 5 minutes. -/
def effectiveThreshold (base : ℚ) (prev cur : Sample) : ℚ :=
  if cur.timestamp - prev.timestamp < 5 then base * (3 / 2) else base

/-- Modelled from the spec: the early-stream exclusion test (§4.3 step 4):
a change point whose elapsed time since stream start is within the first
10% of total stream duration is excluded from candidacy. -/
def excludedEarly (tStart tEnd t : ℚ) : Prop :=
  t - tStart < (tEnd - tStart) / 10

instance (tStart tEnd t : ℚ) : Decidable (excludedEarly tStart tEnd t) :=
  inferInstanceAs (Decidable (_ < _))

/-- Modelled from the spec: qualification of one change point (§4.3 steps
2–5): not inside the exclusion window, and `|modifiedZScore| ≥
effectiveThreshold`. -/
def qualifies (med madv base tStart tEnd : ℚ) (p : Sample × Sample) : Bool :=
  if ¬ excludedEarly tStart tEnd p.2.timestamp ∧
      effectiveThreshold base p.1 p.2 ≤ |modifiedZScore med madv p.2.value| then
    true
  else false

/-- Modelled from the spec: the annotated anomaly record built for a
qualifying change point (§4.3 steps 1, 5, 6). `changeRate` carries the
defensive divide-by-zero guard of step 1. -/
def mkRecord (med madv tStart tEnd : ℚ) (p : Sample × Sample) : AnomalyRecord :=
  let ca := p.2.value - p.1.value
  { timestamp := p.2.timestamp
    value := p.2.value
    previousValue := p.1.value
    changeAmount := ca
    changeRate := if p.1.value = 0 then 0 else ca / p.1.value * 100
    modifiedZScore := modifiedZScore med madv p.2.value
    isPositive := if 0 < ca then true else false
    minutesFromStreamStart := ⌊p.2.timestamp - tStart⌋
    streamPhase := streamPhaseOf tStart tEnd p.2.timestamp }

/-- Modelled from the spec: all qualifying anomalies of the de-duplicated
change-point sequence, before ranking and truncation (§4.3). The statistics
are computed once over the change-point value set (§4.2, §8 scenario 1);
a zero MAD yields the empty set (§4.3 failure semantics). -/
def candidates (base tStart tEnd : ℚ) (cps : List Sample) : List AnomalyRecord :=
  let vals := cps.map (·.value)
  let med := median vals
  let madv := mad vals
  if madv = 0 then []
  else ((consecutivePairs cps).filter (qualifies med madv base tStart tEnd)).map
    (mkRecord med madv tStart tEnd)

/-- Modelled from the spec: ranking order (§4.3 step 7) — absolute
`modifiedZScore` descending. -/
def rankGE (a b : AnomalyRecord) : Prop :=
  |b.modifiedZScore| ≤ |a.modifiedZScore|

/-- Modelled from the spec: chronological order of anomaly records (§4.3
step 7). -/
def chronLE (a b : AnomalyRecord) : Prop :=
  a.timestamp ≤ b.timestamp

instance : DecidableRel rankGE := fun _ _ =>
  inferInstanceAs (Decidable (_ ≤ _))

instance : DecidableRel chronLE := fun _ _ =>
  inferInstanceAs (Decidable (_ ≤ _))

instance : IsTotal AnomalyRecord rankGE :=
  ⟨fun a b => le_total |b.modifiedZScore| |a.modifiedZScore|⟩

instance : IsTrans AnomalyRecord rankGE :=
  ⟨fun _ _ _ h h2 => le_trans h2 h⟩

instance : IsTotal AnomalyRecord chronLE :=
  ⟨fun a b => le_total a.timestamp b.timestamp⟩

instance : IsTrans AnomalyRecord chronLE :=
  ⟨fun _ _ _ h h2 => le_trans h h2⟩

/-- Modelled from the spec: the classifier (§4.3): qualifying anomalies are
ranked by absolute `modifiedZScore` descending, the top 50 are kept, and
the kept set is re-sorted chronologically for output. -/
def classify (base tStart tEnd : ℚ) (cps : List Sample) : List AnomalyRecord :=
  ((candidates base tStart tEnd cps).insertionSort rankGE).take 50
    |>.insertionSort chronLE

/-! ### Trend tagger (spec §4.4) -/

/-- Modelled from the spec: trend classification (§4.4): split the
change-point value sequence at its midpoint index, compare the halves'
medians against `1.5 × mad`; fewer than 2 change points is `stable` by
definition. -/
def trendOf (madv : ℚ) (vals : List ℚ) : Trend :=
  if vals.length < 2 then .stable
  else if 3 / 2 * madv <
      median (vals.drop (vals.length / 2)) - median (vals.take (vals.length / 2)) then
    .increasing
  else if median (vals.drop (vals.length / 2)) - median (vals.take (vals.length / 2)) <
      -(3 / 2 * madv) then
    .decreasing
  else .stable

/-! ### Result assembler (spec §4.5, §6) -/

/-- Modelled from the spec: the trend statistics record (§3). -/
structure TrendStats where
  viewerMedian : ℚ
  viewerMad : ℚ
  viewerAvg : ℚ
  viewerTrend : Trend
  chatAvg : ℚ
  chatStdDev : ℝ
  chatTrend : Trend

/-- Modelled from the spec: the report (§4.5):
`{ viewerAnomalies, chatAnomalies, trendStats }`. -/
structure Report where
  viewerAnomalies : List AnomalyRecord
  chatAnomalies : List AnomalyRecord
  trendStats : TrendStats

/-- Modelled from the spec: the first retained sample's timestamp — the
stream start used for phase tagging (§3 stream bounds). -/
def startOf (l : List Sample) : ℚ :=
  ((l.head?).map (·.timestamp)).getD 0

/-- Modelled from the spec: the last observed sample's timestamp — the
stream end when the stream is still live (§3 stream bounds). -/
def endOf (l : List Sample) : ℚ :=
  ((l.getLast?).map (·.timestamp)).getD 0

/-- Modelled from the spec: the engine (§6):
`detect(channelId, streamId, startTime, endTime, zThreshold) → Report`,
here over the two raw series the external store supplies for the requested
channel and window. Preprocessing, statistics, classification, trend
tagging and assembly as in §4.1–§4.5; the change points feeding the trend
exclude the first baseline sample (§8 scenario 3). -/
noncomputable def detect (minValid base : ℚ) (viewerRaw chatRaw : List RawSample) : Report :=
  let vs := dedup (filterValid minValid viewerRaw)
  let cs := dedup (filterValid minValid chatRaw)
  let vVals := vs.map (·.value)
  let cVals := cs.map (·.value)
  { viewerAnomalies := classify base (startOf vs) (endOf vs) vs
    chatAnomalies := classify base (startOf cs) (endOf cs) cs
    trendStats :=
      { viewerMedian := median vVals
        viewerMad := mad vVals
        viewerAvg := mean vVals
        viewerTrend := trendOf (mad vVals) (vs.tail.map (·.value))
        chatAvg := mean cVals
        chatStdDev := stddev cVals
        chatTrend := trendOf (mad cVals) (cs.tail.map (·.value)) } }

/-- Modelled from the spec: the engine behind an invalid or missing
`channelId` (§7): the store supplies no series, and the result is a report
with empty anomaly lists and stable trends, not an error. -/
noncomputable def detectFromStore (minValid base : ℚ)
    (lookup : Option (List RawSample × List RawSample)) : Report :=
  match lookup with
  | none => detect minValid base [] []
  | some (v, c) => detect minValid base v c

/-! ### AnomalyDetectionTab (src/components/Statistics/DataScience/AnomalyDetectionTab.tsx)

The component receives the report and filters each anomaly list by the
parse result of its timestamp string. `new Date(a.timestamp).getTime()` is
embedded as an `Option ℤ` of epoch milliseconds, `none` when the result is
`NaN` (unparseable). -/

/-- An anomaly as the tab consumes it: the timestamp's parse result in
epoch milliseconds (`none` for `NaN`/Invalid Date), and the displayed
value. -/
structure TabAnomaly where
  timestamp : Option ℤ
  value : ℚ
deriving DecidableEq, Repr

/-- The tab's view of the report data (`data.viewerAnomalies`,
`data.chatAnomalies`). -/
structure AnomalyReportData where
  viewerAnomalies : List TabAnomaly
  chatAnomalies : List TabAnomaly
deriving DecidableEq, Repr

/-- `new Date('1971-01-01').getTime()` in milliseconds:
365 days after the epoch. -/
def epoch1971ms : ℤ := 31536000000

/-- The tab's timestamp filter (AnomalyDetectionTab.tsx lines 69-81):
`!isNaN(time) && time > new Date('1971-01-01').getTime()`. -/
def isValidTimestamp (a : TabAnomaly) : Bool :=
  match a.timestamp with
  | none => false
  | some ms => if epoch1971ms < ms then true else false

/-- `validViewerAnomalies` (AnomalyDetectionTab.tsx lines 69-74). -/
def validViewerAnomalies (d : AnomalyReportData) : List TabAnomaly :=
  d.viewerAnomalies.filter isValidTimestamp

/-- `validChatAnomalies` (AnomalyDetectionTab.tsx lines 76-81); computed by
the component but consumed nowhere in it. -/
def validChatAnomalies (d : AnomalyReportData) : List TabAnomaly :=
  d.chatAnomalies.filter isValidTimestamp

/-- The viewer anomaly count the tab displays (line 143:
`validViewerAnomalies.length`). -/
def displayedViewerAnomalyCount (d : AnomalyReportData) : ℕ :=
  (validViewerAnomalies d).length

/-- The chat anomaly count the tab displays (line 173:
`data.chatAnomalies.length` — the unfiltered list). -/
def displayedChatAnomalyCount (d : AnomalyReportData) : ℕ :=
  d.chatAnomalies.length

/-! ### Concrete series used to instantiate the theorems -/

/-- A de-duplicated five-point series over a 100-minute stream: a spike to
100 viewers at the very last minute. -/
def sampA : List Sample := [⟨0, 10⟩, ⟨10, 11⟩, ⟨20, 10⟩, ⟨30, 11⟩, ⟨100, 100⟩]

/-- The one anomaly record the classifier returns on `sampA` with base
threshold 3 over stream bounds 0–100. -/
def recA : AnomalyRecord :=
  ⟨100, 100, 11, 89, 8900 / 11, 120061 / 2000, true, 100, .late⟩

/-- `sampA` as the store supplies it, preceded by three samples the
preprocessor must drop: an unparseable timestamp, a timestamp before the
minimum valid instant 0, and a zero-viewer reading. -/
def rawA : List RawSample :=
  [⟨none, some 5⟩, ⟨some (-50), some 7⟩, ⟨some 3, some 0⟩,
   ⟨some 0, some 10⟩, ⟨some 10, some 11⟩, ⟨some 20, some 10⟩,
   ⟨some 30, some 11⟩, ⟨some 100, some 100⟩]

/-- A chat anomaly whose timestamp fails to parse (`new Date` gives `NaN`). -/
def tabAnomalyBad : TabAnomaly := ⟨none, 5⟩

/-- Report data holding one chat anomaly with an unparseable timestamp. -/
def tabDataBad : AnomalyReportData := ⟨[], [tabAnomalyBad]⟩

/-! ## Helper lemmas -/

theorem getD_zero_nonneg : ∀ (s : List ℚ) (i : ℕ), (∀ x ∈ s, 0 ≤ x) → 0 ≤ s.getD i 0
  | [], _, _ => le_refl 0
  | a :: _, 0, h => h a (List.mem_cons_self a _)
  | _ :: t, i + 1, h =>
      getD_zero_nonneg t i fun x hx => h x (List.mem_cons_of_mem _ hx)

theorem median_nonneg (l : List ℚ) (h : ∀ x ∈ l, 0 ≤ x) : 0 ≤ median l := by
  have hs : ∀ x ∈ sortedVals l, 0 ≤ x := fun x hx =>
    h x ((List.mem_insertionSort _).mp hx)
  unfold median
  split
  · exact le_refl 0
  · split
    · exact getD_zero_nonneg _ _ hs
    · have h1 := getD_zero_nonneg (sortedVals l) ((sortedVals l).length / 2 - 1) hs
      have h2 := getD_zero_nonneg (sortedVals l) ((sortedVals l).length / 2) hs
      positivity

theorem mad_nonneg (l : List ℚ) : 0 ≤ mad l := by
  apply median_nonneg
  intro x hx
  obtain ⟨y, _, rfl⟩ := List.mem_map.mp hx
  exact abs_nonneg _

theorem qualifies_iff (med madv base tStart tEnd : ℚ) (p : Sample × Sample) :
    qualifies med madv base tStart tEnd p = true ↔
      ¬ excludedEarly tStart tEnd p.2.timestamp ∧
        effectiveThreshold base p.1 p.2 ≤ |modifiedZScore med madv p.2.value| := by
  by_cases hc : ¬ excludedEarly tStart tEnd p.2.timestamp ∧
      effectiveThreshold base p.1 p.2 ≤ |modifiedZScore med madv p.2.value| <;>
    simp [qualifies, hc]

theorem effectiveThreshold_mono {t1 t2 : ℚ} (prev cur : Sample) (h : t1 ≤ t2) :
    effectiveThreshold t1 prev cur ≤ effectiveThreshold t2 prev cur := by
  unfold effectiveThreshold
  split
  · have : (0 : ℚ) ≤ 3 / 2 := by norm_num
    exact mul_le_mul_of_nonneg_right h this
  · exact h

theorem classify_length (base tStart tEnd : ℚ) (cps : List Sample) :
    (classify base tStart tEnd cps).length =
      min 50 (candidates base tStart tEnd cps).length := by
  unfold classify
  rw [(List.perm_insertionSort chronLE _).length_eq, List.length_take,
    (List.perm_insertionSort rankGE _).length_eq]

theorem mem_candidates_of_mem_classify {base tStart tEnd : ℚ} {cps : List Sample}
    {r : AnomalyRecord} (h : r ∈ classify base tStart tEnd cps) :
    r ∈ candidates base tStart tEnd cps := by
  unfold classify at h
  rw [List.mem_insertionSort] at h
  have h2 := List.take_subset 50 _ h
  rwa [List.mem_insertionSort] at h2

theorem mem_candidates_elim {base tStart tEnd : ℚ} {cps : List Sample}
    {r : AnomalyRecord} (h : r ∈ candidates base tStart tEnd cps) :
    mad (cps.map (·.value)) ≠ 0 ∧
      ∃ p ∈ consecutivePairs cps,
        qualifies (median (cps.map (·.value))) (mad (cps.map (·.value)))
            base tStart tEnd p = true ∧
          r = mkRecord (median (cps.map (·.value))) (mad (cps.map (·.value)))
            tStart tEnd p := by
  unfold candidates at h
  by_cases hm : mad (cps.map (·.value)) = 0
  · simp [hm] at h
  · rw [if_neg hm] at h
    obtain ⟨p, hp, rfl⟩ := List.mem_map.mp h
    exact ⟨hm, p, (List.mem_filter.mp hp).1, (List.mem_filter.mp hp).2, rfl⟩

theorem mem_of_mem_dedupFrom {s : Sample} :
    ∀ (prev : ℚ) (l : List Sample), s ∈ dedupFrom prev l → s ∈ l := by
  intro prev l
  induction l generalizing prev with
  | nil => intro h; cases h
  | cons a t ih =>
    intro h
    unfold dedupFrom at h
    split at h
    · exact List.mem_cons_of_mem _ (ih _ h)
    · rcases List.mem_cons.mp h with rfl | h2
      · exact List.mem_cons_self _ _
      · exact List.mem_cons_of_mem _ (ih _ h2)

theorem mem_of_mem_dedup {s : Sample} {l : List Sample} (h : s ∈ dedup l) : s ∈ l := by
  cases l with
  | nil => cases h
  | cons a t =>
    rcases List.mem_cons.mp h with rfl | h2
    · exact List.mem_cons_self _ _
    · exact List.mem_cons_of_mem _ (mem_of_mem_dedupFrom _ _ h2)

theorem snd_mem_of_mem_pairs {p : Sample × Sample} {l : List Sample}
    (h : p ∈ consecutivePairs l) : p.2 ∈ l := by
  have := List.of_mem_zip (show (p.1, p.2) ∈ l.zip l.tail from h)
  exact List.mem_of_mem_tail this.2

theorem parseValid_some {minValid : ℚ} {raw : RawSample} {s : Sample}
    (h : parseValid minValid raw = some s) :
    minValid ≤ s.timestamp ∧ 0 < s.value := by
  unfold parseValid at h
  rcases raw with ⟨t, v⟩
  cases t with
  | none => cases h
  | some tv =>
    cases v with
    | none => cases h
    | some vv =>
      simp only at h
      split at h
      · cases h
      · split at h
        · cases h
        · cases h
          constructor
          · linarith [not_lt.mp (by assumption : ¬ tv < minValid)]
          · linarith [not_le.mp (by assumption : ¬ vv ≤ 0)]

theorem mem_filterValid {minValid : ℚ} {s : Sample} {l : List RawSample}
    (h : s ∈ filterValid minValid l) : minValid ≤ s.timestamp ∧ 0 < s.value := by
  obtain ⟨raw, _, hp⟩ := List.mem_filterMap.mp h
  exact parseValid_some hp

theorem length_filter_lt {α : Type} (p : α → Bool) (l : List α) (a : α)
    (ha : a ∈ l) (hp : p a = false) : (l.filter p).length < l.length := by
  induction l with
  | nil => cases ha
  | cons b t ih =>
    rcases List.mem_cons.mp ha with rfl | ha2
    · rw [List.filter_cons_of_neg (by simp [hp])]
      exact Nat.lt_succ_of_le (List.length_filter_le p t)
    · by_cases hb : p b = true
      · rw [List.filter_cons_of_pos hb]
        simpa using ih ha2
      · rw [List.filter_cons_of_neg (by simpa using hb)]
        exact Nat.lt_succ_of_lt (ih ha2)

/-! ## Evaluation of the concrete series -/

theorem filterValid_rawA : filterValid 0 rawA = sampA := by
  norm_num [filterValid, rawA, sampA, parseValid, List.filterMap]

theorem dedup_sampA : dedup sampA = sampA := by
  norm_num [dedup, dedupFrom, sampA]

theorem classify_sampA : classify 3 0 100 sampA = [recA] := by
  norm_num [classify, candidates, sampA, recA, consecutivePairs, qualifies, excludedEarly,
    effectiveThreshold, modifiedZScore, mkRecord, median, sortedVals, mad, mean, streamPhaseOf,
    relativePosition, rankGE, chronLE, List.insertionSort, List.orderedInsert,
    List.getD, List.filter, abs_of_nonneg, abs_of_nonpos, AnomalyRecord.mk.injEq]

theorem detect_rawA_viewer : (detect 0 3 rawA []).viewerAnomalies = [recA] := by
  have h1 : dedup (filterValid 0 rawA) = sampA := by
    rw [filterValid_rawA, dedup_sampA]
  show classify 3 (startOf (dedup (filterValid 0 rawA))) (endOf (dedup (filterValid 0 rawA)))
      (dedup (filterValid 0 rawA)) = [recA]
  rw [h1]
  have hs : startOf sampA = 0 := by norm_num [startOf, sampA]
  have he : endOf sampA = 100 := by norm_num [endOf, sampA, List.getLast?]
  rw [hs, he, classify_sampA]

theorem detect_viewer_eq (m b : ℚ) (v c : List RawSample) :
    (detect m b v c).viewerAnomalies =
      classify b (startOf (dedup (filterValid m v))) (endOf (dedup (filterValid m v)))
        (dedup (filterValid m v)) := rfl

theorem detect_chat_eq (m b : ℚ) (v c : List RawSample) :
    (detect m b v c).chatAnomalies =
      classify b (startOf (dedup (filterValid m c))) (endOf (dedup (filterValid m c)))
        (dedup (filterValid m c)) := rfl

theorem detect_viewerTrend_eq (m b : ℚ) (v c : List RawSample) :
    (detect m b v c).trendStats.viewerTrend =
      trendOf (mad ((dedup (filterValid m v)).map (·.value)))
        ((dedup (filterValid m v)).tail.map (·.value)) := rfl

theorem detect_chatTrend_eq (m b : ℚ) (v c : List RawSample) :
    (detect m b v c).trendStats.chatTrend =
      trendOf (mad ((dedup (filterValid m c)).map (·.value)))
        ((dedup (filterValid m c)).tail.map (·.value)) := rfl

theorem classify_nil (b tStart tEnd : ℚ) : classify b tStart tEnd [] = [] := rfl

/-! ## The claims -/

/-- C1: for a change point of the de-duplicated sequence (skipping the
first) outside the first-10% exclusion window, the classifier reports it
as an anomaly iff `|modifiedZScore| ≥ effectiveThreshold`, where the
effective threshold is the base threshold times 1.5 when the time gap to
the previous change point is under 5 minutes and the base threshold
otherwise; every reported anomaly has `isPositive = (changeAmount > 0)`. -/
theorem claim1_anomaly_qualification (med madv base tStart tEnd : ℚ)
    (prev cur : Sample) (hout : ¬ excludedEarly tStart tEnd cur.timestamp) :
    (qualifies med madv base tStart tEnd (prev, cur) = true ↔
      (if cur.timestamp - prev.timestamp < 5 then base * (3 / 2) else base) ≤
        |modifiedZScore med madv cur.value|)
    ∧ ((mkRecord med madv tStart tEnd (prev, cur)).isPositive = true ↔
        0 < (mkRecord med madv tStart tEnd (prev, cur)).changeAmount)
    ∧ (∀ cps : List Sample, mad (cps.map (·.value)) ≠ 0 →
        candidates base tStart tEnd cps =
          ((consecutivePairs cps).filter
            (qualifies (median (cps.map (·.value))) (mad (cps.map (·.value)))
              base tStart tEnd)).map
            (mkRecord (median (cps.map (·.value))) (mad (cps.map (·.value)))
              tStart tEnd)) := by
  refine ⟨?_, ?_, ?_⟩
  · rw [qualifies_iff]
    simp only [effectiveThreshold]
    exact ⟨fun h => h.2, fun h => ⟨hout, h⟩⟩
  · simp only [mkRecord]
    split <;> simp_all
  · intro cps hm
    unfold candidates
    rw [if_neg hm]

theorem claim1_witness :
    ¬ excludedEarly 0 100 ((⟨100, 100⟩ : Sample).timestamp) ∧
      ((qualifies 11 1 3 0 100 (⟨30, 11⟩, ⟨100, 100⟩) = true ↔
        (if (⟨100, 100⟩ : Sample).timestamp - (⟨30, 11⟩ : Sample).timestamp < 5
          then 3 * (3 / 2) else 3) ≤
          |modifiedZScore 11 1 (⟨100, 100⟩ : Sample).value|)
      ∧ ((mkRecord 11 1 0 100 (⟨30, 11⟩, ⟨100, 100⟩)).isPositive = true ↔
          0 < (mkRecord 11 1 0 100 (⟨30, 11⟩, ⟨100, 100⟩)).changeAmount)
      ∧ (∀ cps : List Sample, mad (cps.map (·.value)) ≠ 0 →
          candidates 3 0 100 cps =
            ((consecutivePairs cps).filter
              (qualifies (median (cps.map (·.value))) (mad (cps.map (·.value)))
                3 0 100)).map
              (mkRecord (median (cps.map (·.value))) (mad (cps.map (·.value)))
                0 100))) :=
  ⟨by norm_num [excludedEarly],
    claim1_anomaly_qualification 11 1 3 0 100 ⟨30, 11⟩ ⟨100, 100⟩
      (by norm_num [excludedEarly])⟩

/-- C2: each returned anomaly list holds at most 50 records; the kept
records are the qualifying anomalies ranked by absolute modifiedZScore
descending (the top 50), and the returned set is re-sorted into
chronological order. -/
theorem claim2_cap_and_ordering (minValid base tStart tEnd : ℚ) (cps : List Sample)
    (vraw craw : List RawSample) :
    (classify base tStart tEnd cps).length ≤ 50
    ∧ (classify base tStart tEnd cps).Perm
        (((candidates base tStart tEnd cps).insertionSort rankGE).take 50)
    ∧ List.Sorted rankGE ((candidates base tStart tEnd cps).insertionSort rankGE)
    ∧ List.Sorted chronLE (classify base tStart tEnd cps)
    ∧ (detect minValid base vraw craw).viewerAnomalies.length ≤ 50
    ∧ (detect minValid base vraw craw).chatAnomalies.length ≤ 50 := by
  refine ⟨?_, ?_, ?_, ?_, ?_, ?_⟩
  · rw [classify_length]
    exact min_le_left _ _
  · exact List.perm_insertionSort chronLE _
  · exact List.sorted_insertionSort rankGE _
  · exact List.sorted_insertionSort chronLE _
  · rw [detect_viewer_eq, classify_length]
    exact min_le_left _ _
  · rw [detect_chat_eq, classify_length]
    exact min_le_left _ _

/-- C3: the computed MAD is never negative, and a zero MAD (all retained
values identical) makes the classifier return the empty anomaly set — no
division by zero, no exception. -/
theorem claim3_degenerate_mad (base tStart tEnd : ℚ) (cps : List Sample) :
    0 ≤ mad (cps.map (·.value))
    ∧ (mad (cps.map (·.value)) = 0 → classify base tStart tEnd cps = []) := by
  refine ⟨mad_nonneg _, fun hm => ?_⟩
  have hc : candidates base tStart tEnd cps = [] := by
    unfold candidates
    rw [if_pos hm]
  unfold classify
  rw [hc]
  rfl

/-- C6: the de-duplicated change-point sequence never contains two
chronologically adjacent entries with equal value. -/
theorem claim6_dedup_invariant (l : List Sample) :
    List.Chain' (fun a b => a.value ≠ b.value) (dedup l) := by
  have aux : ∀ (l : List Sample) (prev : ℚ),
      (∀ b ∈ (dedupFrom prev l).head?, b.value ≠ prev) ∧
        List.Chain' (fun a b => a.value ≠ b.value) (dedupFrom prev l) := by
    intro l
    induction l with
    | nil => intro prev; exact ⟨by simp [dedupFrom], List.chain'_nil⟩
    | cons a t ih =>
      intro prev
      unfold dedupFrom
      split
      · exact ih prev
      · refine ⟨?_, ?_⟩
        · intro b hb
          simp only [List.head?_cons, Option.mem_def, Option.some.injEq] at hb
          subst hb
          assumption
        · exact List.chain'_cons'.mpr
            ⟨fun b hb => Ne.symm ((ih a.value).1 b hb), (ih a.value).2⟩
  cases l with
  | nil => exact List.chain'_nil
  | cons a t =>
    exact List.chain'_cons'.mpr
      ⟨fun b hb => Ne.symm ((aux t a.value).1 b hb), (aux t a.value).2⟩

theorem qualifies_mono {t1 t2 : ℚ} (med madv tStart tEnd : ℚ) (h : t1 ≤ t2)
    (p : Sample × Sample) (hq : qualifies med madv t2 tStart tEnd p = true) :
    qualifies med madv t1 tStart tEnd p = true := by
  rw [qualifies_iff] at hq ⊢
  exact ⟨hq.1, le_trans (effectiveThreshold_mono p.1 p.2 h) hq.2⟩

theorem candidates_length_mono {t1 t2 : ℚ} (tStart tEnd : ℚ) (cps : List Sample)
    (h : t1 ≤ t2) :
    (candidates t2 tStart tEnd cps).length ≤ (candidates t1 tStart tEnd cps).length := by
  unfold candidates
  by_cases hm : mad (cps.map (·.value)) = 0
  · simp [hm]
  · rw [if_neg hm, if_neg hm, List.length_map, List.length_map]
    exact (List.monotone_filter_right _ fun p hp => qualifies_mono _ _ _ _ h p hp).length_le

/-- C4: raising the threshold never increases the anomaly count: for
`t1 ≤ t2`, the anomaly lists computed with threshold `t2` are no longer
than those computed with threshold `t1`. -/
theorem claim4_threshold_monotonicity (t1 t2 minValid tStart tEnd : ℚ)
    (cps : List Sample) (vraw craw : List RawSample) (h : t1 ≤ t2) :
    (classify t2 tStart tEnd cps).length ≤ (classify t1 tStart tEnd cps).length
    ∧ (detect minValid t2 vraw craw).viewerAnomalies.length ≤
        (detect minValid t1 vraw craw).viewerAnomalies.length
    ∧ (detect minValid t2 vraw craw).chatAnomalies.length ≤
        (detect minValid t1 vraw craw).chatAnomalies.length := by
  have core : ∀ (s e : ℚ) (l : List Sample),
      (classify t2 s e l).length ≤ (classify t1 s e l).length := by
    intro s e l
    rw [classify_length, classify_length]
    exact min_le_min (le_refl 50) (candidates_length_mono s e l h)
  refine ⟨core _ _ _, ?_, ?_⟩
  · rw [detect_viewer_eq, detect_viewer_eq]
    exact core _ _ _
  · rw [detect_chat_eq, detect_chat_eq]
    exact core _ _ _

theorem claim4_witness :
    ((2 : ℚ) ≤ 3) ∧
      ((classify 3 0 100 sampA).length ≤ (classify 2 0 100 sampA).length
      ∧ (detect 0 3 rawA []).viewerAnomalies.length ≤
          (detect 0 2 rawA []).viewerAnomalies.length
      ∧ (detect 0 3 rawA []).chatAnomalies.length ≤
          (detect 0 2 rawA []).chatAnomalies.length) :=
  ⟨by norm_num,
    claim4_threshold_monotonicity 2 3 0 0 100 sampA rawA [] (by norm_num)⟩

/-- C5: a change point inside the first-10% exclusion window never appears
in the returned anomaly set, while no symmetric exclusion exists near the
stream's end: on the concrete series `sampA` the classifier returns a
record in the last tenth of the stream. -/
theorem claim5_early_exclusion (base tStart tEnd : ℚ) (cps : List Sample)
    (r : AnomalyRecord) (hr : r ∈ classify base tStart tEnd cps) :
    ¬ excludedEarly tStart tEnd r.timestamp
    ∧ ∃ rl ∈ classify 3 0 100 sampA, 9 / 10 * (100 - 0) ≤ rl.timestamp - 0 := by
  constructor
  · obtain ⟨hm, p, hp, hq, rfl⟩ :=
      mem_candidates_elim (mem_candidates_of_mem_classify hr)
    have hcond := (qualifies_iff _ _ _ _ _ _).mp hq
    simpa [mkRecord] using hcond.1
  · refine ⟨recA, ?_, by norm_num [recA]⟩
    rw [classify_sampA]
    exact List.mem_singleton_self _

theorem claim5_witness :
    recA ∈ classify 3 0 100 sampA ∧
      (¬ excludedEarly 0 100 recA.timestamp
      ∧ ∃ rl ∈ classify 3 0 100 sampA, 9 / 10 * (100 - 0) ≤ rl.timestamp - 0) :=
  ⟨by rw [classify_sampA]; exact List.mem_singleton_self _,
    claim5_early_exclusion 3 0 100 sampA recA
      (by rw [classify_sampA]; exact List.mem_singleton_self _)⟩

/-- C7: for a non-empty sequence, the statistics module returns the middle
value of the sorted sequence as median (average of the two middle values
for even length), the median of absolute deviations as MAD, the classical
mean, and a sample standard deviation whose square is `Σ(x−mean)²/(n−1)`
(0 for `n = 1`); the Modified Z-Score of `x` is
`0.6745 × (x − median) / mad`. -/
theorem claim7_robust_statistics (l : List ℚ) (x : ℚ) (h : l ≠ []) :
    (l.length % 2 = 1 → median l = (sortedVals l).getD (l.length / 2) 0)
    ∧ (l.length % 2 = 0 → median l =
        ((sortedVals l).getD (l.length / 2 - 1) 0 +
          (sortedVals l).getD (l.length / 2) 0) / 2)
    ∧ List.Sorted (· ≤ ·) (sortedVals l)
    ∧ (sortedVals l).Perm l
    ∧ mad l = median (l.map fun y => |y - median l|)
    ∧ mean l = l.sum / (l.length : ℚ)
    ∧ (0 : ℝ) ≤ stddev l
    ∧ (stddev l) ^ 2 =
        (((l.map fun y => (y - mean l) ^ 2).sum / ((l.length - 1 : ℕ) : ℚ) : ℚ) : ℝ)
    ∧ (l.length = 1 → stddev l = 0)
    ∧ modifiedZScore (median l) (mad l) x = 6745 / 10000 * (x - median l) / mad l := by
  have hlen : (sortedVals l).length = l.length :=
    List.Perm.length_eq (List.perm_insertionSort _ l)
  have h0 : ¬ l.length = 0 := fun hc => h (List.length_eq_zero.mp hc)
  have hv : 0 ≤ variance l := by
    unfold variance
    apply div_nonneg
    · apply List.sum_nonneg
      intro y hy
      obtain ⟨z, _, rfl⟩ := List.mem_map.mp hy
      positivity
    · positivity
  refine ⟨?_, ?_, List.sorted_insertionSort _ l, List.perm_insertionSort _ l,
    rfl, rfl, Real.sqrt_nonneg _, ?_, ?_, rfl⟩
  · intro hodd
    unfold median
    rw [hlen, if_neg h0, if_pos hodd]
  · intro heven
    unfold median
    rw [hlen, if_neg h0, if_neg (by omega)]
  · show Real.sqrt ((variance l : ℚ) : ℝ) ^ 2 = _
    rw [Real.sq_sqrt (by exact_mod_cast hv)]
    rfl
  · intro h1
    obtain ⟨a, rfl⟩ := List.length_eq_one.mp h1
    unfold stddev variance mean
    norm_num

theorem claim7_witness :
    (([1, 2] : List ℚ) ≠ []) ∧
      ((([1, 2] : List ℚ).length % 2 = 1 →
        median [1, 2] = (sortedVals [1, 2]).getD (([1, 2] : List ℚ).length / 2) 0)
      ∧ (([1, 2] : List ℚ).length % 2 = 0 → median [1, 2] =
          ((sortedVals [1, 2]).getD (([1, 2] : List ℚ).length / 2 - 1) 0 +
            (sortedVals [1, 2]).getD (([1, 2] : List ℚ).length / 2) 0) / 2)
      ∧ List.Sorted (· ≤ ·) (sortedVals [1, 2])
      ∧ (sortedVals [1, 2]).Perm [1, 2]
      ∧ mad [1, 2] = median (([1, 2] : List ℚ).map fun y => |y - median [1, 2]|)
      ∧ mean [1, 2] = ([1, 2] : List ℚ).sum / ((([1, 2] : List ℚ).length : ℕ) : ℚ)
      ∧ (0 : ℝ) ≤ stddev [1, 2]
      ∧ (stddev [1, 2]) ^ 2 =
          (((([1, 2] : List ℚ).map fun y => (y - mean [1, 2]) ^ 2).sum /
            ((([1, 2] : List ℚ).length - 1 : ℕ) : ℚ) : ℚ) : ℝ)
      ∧ (([1, 2] : List ℚ).length = 1 → stddev [1, 2] = 0)
      ∧ modifiedZScore (median [1, 2]) (mad [1, 2]) 5 =
          6745 / 10000 * (5 - median [1, 2]) / mad [1, 2]) :=
  ⟨by simp, claim7_robust_statistics [1, 2] 5 (by simp)⟩

/-- C8: the trend is increasing iff the half-median delta exceeds
`1.5 × mad`, decreasing iff it is below `−1.5 × mad`, stable otherwise;
fewer than 2 change points — including an invalid/missing channelId or an
empty series after filtering — yields a stable trend and empty anomaly
lists, never an error. -/
theorem claim8_trend_classification (madv minValid base : ℚ) (vals : List ℚ)
    (vraw craw : List RawSample) :
    (vals.length < 2 → trendOf madv vals = Trend.stable)
    ∧ (2 ≤ vals.length → trendOf madv vals =
        (if 3 / 2 * madv <
            median (vals.drop (vals.length / 2)) - median (vals.take (vals.length / 2))
          then Trend.increasing
          else if median (vals.drop (vals.length / 2)) -
              median (vals.take (vals.length / 2)) < -(3 / 2 * madv)
          then Trend.decreasing
          else Trend.stable))
    ∧ (detectFromStore minValid base none).viewerAnomalies = []
    ∧ (detectFromStore minValid base none).chatAnomalies = []
    ∧ (detectFromStore minValid base none).trendStats.viewerTrend = Trend.stable
    ∧ (detectFromStore minValid base none).trendStats.chatTrend = Trend.stable
    ∧ (filterValid minValid vraw = [] →
        (detect minValid base vraw craw).viewerAnomalies = [] ∧
          (detect minValid base vraw craw).trendStats.viewerTrend = Trend.stable) := by
  refine ⟨?_, ?_, rfl, rfl, rfl, rfl, ?_⟩
  · intro hlt
    unfold trendOf
    rw [if_pos hlt]
  · intro h2
    unfold trendOf
    rw [if_neg (not_lt.mpr h2)]
  · intro hv
    constructor
    · rw [detect_viewer_eq, hv]
      rfl
    · rw [detect_viewerTrend_eq, hv]
      rfl

/-- C9: samples with unparseable timestamps or timestamps before the
minimum valid instant are filtered out before the classifier, so no
anomaly record of the returned report carries such a timestamp. -/
theorem claim9_malformed_timestamp_filtering (minValid base : ℚ)
    (vraw craw : List RawSample) (r : AnomalyRecord)
    (hr : r ∈ (detect minValid base vraw craw).viewerAnomalies ∨
          r ∈ (detect minValid base vraw craw).chatAnomalies) :
    minValid ≤ r.timestamp := by
  have core : ∀ (raw : List RawSample) (tS tE : ℚ),
      r ∈ classify base tS tE (dedup (filterValid minValid raw)) →
        minValid ≤ r.timestamp := by
    intro raw tS tE hmem
    obtain ⟨hm, p, hp, hq, rfl⟩ :=
      mem_candidates_elim (mem_candidates_of_mem_classify hmem)
    have h2 : p.2 ∈ filterValid minValid raw :=
      mem_of_mem_dedup (snd_mem_of_mem_pairs hp)
    have h3 := (mem_filterValid h2).1
    simpa [mkRecord] using h3
  rcases hr with hv | hc
  · rw [detect_viewer_eq] at hv
    exact core _ _ _ hv
  · rw [detect_chat_eq] at hc
    exact core _ _ _ hc

theorem claim9_witness :
    (recA ∈ (detect 0 3 rawA []).viewerAnomalies ∨
      recA ∈ (detect 0 3 rawA []).chatAnomalies) ∧ (0 : ℚ) ≤ recA.timestamp :=
  ⟨Or.inl (by rw [detect_rawA_viewer]; exact List.mem_singleton_self _),
    claim9_malformed_timestamp_filtering 0 3 rawA [] recA
      (Or.inl (by rw [detect_rawA_viewer]; exact List.mem_singleton_self _))⟩

/-- C10: the tab's displayed viewer count, chart and table use only
anomalies passing the timestamp filter, while the displayed chat count
uses the unfiltered list — a chat anomaly with an unparseable or pre-1971
timestamp is counted, though an equivalent viewer anomaly is excluded. -/
theorem claim10_chat_filter_asymmetry (d : AnomalyReportData) (a : TabAnomaly)
    (ha : a ∈ d.chatAnomalies) (hv : isValidTimestamp a = false) :
    displayedChatAnomalyCount d = d.chatAnomalies.length
    ∧ (validChatAnomalies d).length < displayedChatAnomalyCount d
    ∧ displayedViewerAnomalyCount d = (validViewerAnomalies d).length
    ∧ (∀ b ∈ d.viewerAnomalies, isValidTimestamp b = false →
        b ∉ validViewerAnomalies d) := by
  refine ⟨rfl, ?_, rfl, ?_⟩
  · exact length_filter_lt _ _ a ha hv
  · intro b _ hbv hmem
    have hb2 := (List.mem_filter.mp hmem).2
    rw [hbv] at hb2
    cases hb2

theorem claim10_witness :
    (tabAnomalyBad ∈ tabDataBad.chatAnomalies ∧
      isValidTimestamp tabAnomalyBad = false) ∧
      (displayedChatAnomalyCount tabDataBad = tabDataBad.chatAnomalies.length
      ∧ (validChatAnomalies tabDataBad).length < displayedChatAnomalyCount tabDataBad
      ∧ displayedViewerAnomalyCount tabDataBad = (validViewerAnomalies tabDataBad).length
      ∧ ∀ b ∈ tabDataBad.viewerAnomalies, isValidTimestamp b = false →
          b ∉ validViewerAnomalies tabDataBad) :=
  ⟨⟨List.mem_singleton_self _, rfl⟩,
    claim10_chat_filter_asymmetry tabDataBad tabAnomalyBad
      (List.mem_singleton_self _) rfl⟩

end StreamMonitor
